import Mathlib

/-!
Verification of the session-scoped semantic search engine of the
Polyglot Meeting Assistant (backend/src/models/search.py and
backend/src/session_manager.py), as a shallow embedding in Lean.
Python strings are modelled as Lean strings (lists of characters),
floats as rationals, dictionaries as structures or association lists,
and uncaught Python exceptions as `Option`/`Except` failures.
External collaborators (sentence-transformer encoder, FAISS index
retrieval, `datetime.fromisoformat`, the file system) enter as
explicit parameters.
-/

namespace Polyglot

set_option maxRecDepth 200000

/-- Whitespace characters recognised by Python `str.split()`, `str.strip()`
and the regex class used in `search.py` (ASCII subset, which covers all
inputs handled by the engine). -/
def py_is_space (c : Char) : Bool :=
  c = ' ' || c = '\t' || c = '\n' || c = '\r' || c = '\x0b' || c = '\x0c'

/-- Model of Python `str.lower()` (ASCII case folding). -/
def py_lower (s : String) : String :=
  String.mk (s.data.map Char.toLower)

/-- Model of Python `str.upper()` (ASCII case folding). -/
def py_upper (s : String) : String :=
  String.mk (s.data.map Char.toUpper)

/-- Does list `p` occur at the head of list `s`? -/
def list_starts : List Char → List Char → Bool
  | [], _ => true
  | _ :: _, [] => false
  | a :: as, b :: bs => a = b && list_starts as bs

/-- Model of Python `needle in hay` substring containment on strings. -/
def is_sub_list (n : List Char) : List Char → Bool
  | [] => n.isEmpty
  | c :: t => list_starts n (c :: t) || is_sub_list n t

/-- Python substring containment, `needle in hay`. -/
def py_contains (needle hay : String) : Bool :=
  is_sub_list needle.data hay.data

/-- Split off the part of `s` before the first occurrence of `sep`
together with the remainder after it; `none` when `sep` does not occur. -/
def break_at (sep : List Char) : List Char → Option (List Char × List Char)
  | [] => if sep.isEmpty then some ([], []) else none
  | c :: rest =>
    if list_starts sep (c :: rest) then some ([], (c :: rest).drop sep.length)
    else
      match break_at sep rest with
      | none => none
      | some (b, a) => some (c :: b, a)

/-- Fuelled worker for `py_split_on`; the fuel of `length + 1` suffices
because each round consumes at least one character of a non-empty
separator occurrence. -/
def split_fuel (sep : List Char) : Nat → List Char → List (List Char)
  | 0, s => [s]
  | fuel + 1, s =>
    match break_at sep s with
    | none => [s]
    | some (b, a) => b :: split_fuel sep fuel a

/-- Model of Python `s.split(sep)` for a non-empty separator: split on
every non-overlapping occurrence, left to right, keeping empty pieces. -/
def py_split_on (sep s : String) : List String :=
  (split_fuel sep.data (s.data.length + 1) s.data).map String.mk

/-- Worker of `py_split_ws`, carrying the current word reversed. -/
def split_ws_go : List Char → List Char → List String
  | cur, [] => if cur.isEmpty then [] else [String.mk cur.reverse]
  | cur, c :: rest =>
    if py_is_space c then
      if cur.isEmpty then split_ws_go [] rest
      else String.mk cur.reverse :: split_ws_go [] rest
    else split_ws_go (c :: cur) rest

/-- Model of Python `s.split()`: split on runs of whitespace, dropping
empty pieces. -/
def py_split_ws (s : String) : List String :=
  split_ws_go [] s.data

/-- Model of Python `s.strip()`: remove whitespace from both ends. -/
def py_strip (s : String) : String :=
  String.mk (((s.data.dropWhile py_is_space).reverse.dropWhile py_is_space).reverse)

/-- Model of Python `s.strip(".")`: remove dots from both ends. -/
def py_strip_dot (s : String) : String :=
  String.mk (((s.data.dropWhile (· = '.')).reverse.dropWhile (· = '.')).reverse)

/-- Model of Python `s[a:b]` for non-negative bounds (out-of-range
bounds clamp, as in Python). -/
def py_slice (s : String) (a b : Nat) : String :=
  String.mk ((s.data.drop a).take (b - a))

/-- Model of Python `sep.join(parts)`. -/
def py_join (sep : String) : List String → String
  | [] => ""
  | [x] => x
  | x :: y :: rest => x ++ sep ++ py_join sep (y :: rest)

/-- Model of Python `s.replace(old, new)` for a non-empty `old`:
replace every non-overlapping occurrence. -/
def py_replace (s old new : String) : String :=
  py_join new (py_split_on old s)

/-- Embedding vectors; their numeric content is produced by the external
sentence-transformer model and never inspected by the engine itself. -/
abbrev Vec := List ℚ

/-- The embedding step `generate_embeddings` (external encoder plus FAISS
normalisation): for a batch of texts it either returns a batch of vectors
or raises, which `add_meeting` catches. -/
abbrev Embedder := List String → Except Unit (List Vec)

/-- Abstract model of `datetime.fromisoformat`: `none` models the
`ValueError` raised on an unparsable string, `some q` a parsed datetime
on a linear time axis. -/
abbrev DateParse := String → Option ℚ

/-- One record of `self.metadata` (the Document Store), exactly the
dictionary built inside `add_meeting`. -/
structure Chunk where
  meeting_id : String
  meeting_title : String
  meeting_date : String
  content_type : String
  text : String
  participants : List String
  index_position : Nat
deriving DecidableEq

/-- An action-item entry of `meeting_data['action_items']`: either a dict
(whose `str()` rendering backs the `.get('text', str(item))` fallback)
or any other value rendered by `str()`. -/
inductive ActionItem where
  | dict (text : Option String) (repr : String)
  | other (repr : String)
deriving DecidableEq

/-- A timeline entry of `meeting_data['timelines']`: a dict with optional
`timeline`/`context` fields, or any other value rendered by `str()`. -/
inductive TimelineItem where
  | dict (timeline : Option String) (context : Option String)
  | other (repr : String)
deriving DecidableEq

/-- The meeting dictionary consumed by `add_meeting`. Fields read with
`meeting_data[...]` are `Option` (a missing key raises `KeyError`),
fields read with `.get(..., default)` carry the default through
`Option`, and string fields read with `.get(..., '')` are plain strings
(missing and empty behave identically). -/
structure MeetingData where
  id : Option String
  title : Option String
  date : Option String
  transcript : String
  summary : String
  action_items : List ActionItem
  key_decisions : List String
  timelines : List TimelineItem
  participants : List String
deriving DecidableEq

/-- In-memory state of one `MeetingSearchEngine`: encoder availability,
the FAISS index contents (`none` when index creation failed), the
metadata list, the pair of files last written to disk (`none` before the
first successful save), and the configured model name. -/
structure EngineState where
  encoder : Bool
  index : Option (List Vec)
  metadata : List Chunk
  persisted : Option (List Vec × List Chunk)
  model_name : String
deriving DecidableEq

/-- The tail of `prev` used as overlap, `prev_chunk[overlap_start:]` with
`overlap_start = max(0, len(prev_chunk) - overlap)`. -/
def overlap_tail (prev : String) (overlap : Nat) : String :=
  String.mk (prev.data.drop (prev.data.length - overlap))

/-- Reassembly of accumulated sentences, `". ".join(current_chunk) + "."`. -/
def join_chunk (l : List String) : String :=
  py_join ". " l ++ "."

/-- One iteration of the sentence loop of `_smart_chunk_text`, acting on
the state `(chunks, current_chunk, current_length)`. -/
def smart_chunk_step (chunk_size overlap : Nat)
    (st : List String × List String × Nat) (sentence : String) :
    List String × List String × Nat :=
  let chunks := st.1
  let current := st.2.1
  let curLen := st.2.2
  let sl := sentence.length
  if chunk_size < curLen + sl && !current.isEmpty then
    let current' :=
      if !chunks.isEmpty && 0 < overlap then
        overlap_tail (chunks.getLast?.getD "") overlap :: current
      else current
    (chunks ++ [join_chunk current'], [py_strip_dot sentence], sl)
  else
    (chunks, current ++ [py_strip_dot sentence], curLen + sl)

/-- `MeetingSearchEngine._smart_chunk_text`: sentence-boundary chunking
with overlap, capped at `target_chunks` chunks. -/
def smart_chunk_text (text : String) (target_chunks overlap : Nat) : List String :=
  let text_length := text.length
  let chunk_size := max (text_length / target_chunks) 800
  let sentences := py_split_on ". " text
  let st := sentences.foldl (smart_chunk_step chunk_size overlap) ([], [], 0)
  let chunks := if st.2.1.isEmpty then st.1 else st.1 ++ [join_chunk st.2.1]
  chunks.take target_chunks

/-- Transcript section of `_extract_searchable_content`: verbatim when at
most 2000 characters, otherwise smart-chunked with target 8 and
overlap 300. -/
def transcript_pairs (t : String) : List (String × String) :=
  if t.isEmpty then []
  else if t.length ≤ 2000 then [(t, "transcript")]
  else (smart_chunk_text t 8 300).map (fun c => (c, "transcript"))

/-- Summary section of `_extract_searchable_content`. -/
def summary_pairs (su : String) : List (String × String) :=
  if su.isEmpty then [] else [(su, "summary")]

/-- Action-item section of `_extract_searchable_content`: dict items fall
back from their `text` field to `str(item)`; items whose stripped text is
empty are dropped, the unstripped text is indexed. -/
def action_item_pairs (items : List ActionItem) : List (String × String) :=
  items.filterMap fun it =>
    let text :=
      match it with
      | .dict txt rep => txt.getD rep
      | .other rep => rep
    if (py_strip text).isEmpty then none else some (text, "action_item")

/-- Decision section of `_extract_searchable_content`: each decision is
rendered with `str`, stripped, and indexed when non-empty. -/
def decision_pairs (ds : List String) : List (String × String) :=
  ds.filterMap fun d =>
    let dt := py_strip d
    if dt.isEmpty then none else some (dt, "decision")

/-- Timeline section of `_extract_searchable_content`: dict entries are
formatted as `"{timeline} - {context}"`, others rendered with `str`;
the stripped text is indexed when non-empty. -/
def timeline_pairs (ts : List TimelineItem) : List (String × String) :=
  ts.filterMap fun tl =>
    let raw :=
      match tl with
      | .dict t c => (t.getD "") ++ " - " ++ (c.getD "")
      | .other rep => rep
    let st := py_strip raw
    if st.isEmpty then none else some (st, "timeline")

/-- `MeetingSearchEngine._extract_searchable_content`: the parallel
`texts`/`types` lists, modelled as one list of `(text, content_type)`
pairs in the source's append order. -/
def extract_searchable_content (m : MeetingData) : List (String × String) :=
  transcript_pairs m.transcript ++ summary_pairs m.summary ++
    action_item_pairs m.action_items ++ decision_pairs m.key_decisions ++
    timeline_pairs m.timelines

/-- The texts indexed with content type `transcript` for a meeting. -/
def transcript_texts (m : MeetingData) : List String :=
  (extract_searchable_content m).filterMap fun p =>
    if p.2 = "transcript" then some p.1 else none

/-- `_save_index`: writes the FAISS index and the metadata list to disk
(modelled as replacing the persisted pair); a missing index skips the
write, and write errors are caught and logged in the source. -/
def save_index (s : EngineState) : EngineState :=
  match s.index with
  | none => s
  | some idx => { s with persisted := some (idx, s.metadata) }

/-- The metadata records appended by the loop in `add_meeting`, the i-th
carrying `index_position = len(self.metadata) + i`. -/
def build_chunk_records (mid title date : String) (parts : List String)
    (base : Nat) (pairs : List (String × String)) : List Chunk :=
  pairs.mapIdx fun i p =>
    { meeting_id := mid, meeting_title := title, meeting_date := date,
      content_type := p.2, text := p.1, participants := parts,
      index_position := base + i }

/-- `MeetingSearchEngine.add_meeting`. The source guard
`if not searchable_texts:` tests the dictionary
`{'texts': [...], 'types': [...]}`, which always has two keys and is
therefore always truthy, so that branch can never fire and is absent
here. Vectors are added to the FAISS index before the metadata loop
runs; reading `meeting_data['id']` in the first loop iteration raises
`KeyError` when the key is missing, which the surrounding `except`
turns into `False` after the index was already extended. -/
def add_meeting (embed : Embedder) (now_iso : String)
    (s : EngineState) (m : MeetingData) : Bool × EngineState :=
  if !s.encoder then (false, s)
  else
    match s.index with
    | none => (false, s)
    | some idx =>
      let pairs := extract_searchable_content m
      match embed (pairs.map (·.1)) with
      | .error _ => (false, s)
      | .ok embs =>
        let s1 := { s with index := some (idx ++ embs) }
        match pairs with
        | [] => (true, save_index s1)
        | _ :: _ =>
          match m.id with
          | none => (false, s1)
          | some mid =>
            let recs := build_chunk_records mid
              (m.title.getD "Untitled Meeting") (m.date.getD now_iso)
              m.participants s1.metadata.length pairs
            let s2 := { s1 with metadata := s1.metadata ++ recs }
            (true, save_index s2)

/-- The match count computed for the window starting at `i` in
`_create_snippet`: the number of entries of the whitespace-split
lowercased query (duplicates counted separately) contained in the
lowercased window `text[i:i+L]`. -/
def snippet_score (text query : String) (L i : Nat) : Nat :=
  let query_words := py_split_ws (py_lower query)
  let window := py_lower (py_slice text i (i + L))
  query_words.countP fun w => py_contains w window

/-- The `best_pos` scan of `_create_snippet`: slide over every start
offset in `range(len(text) - L + 1)`, keeping the earliest offset of
strictly maximal match count (initial value 0 with count 0). -/
def best_pos (text query : String) (L : Nat) : Nat :=
  ((List.range (text.length + 1 - L)).foldl
    (fun bp i =>
      if bp.2 < snippet_score text query L i then (i, snippet_score text query L i)
      else bp)
    ((0, 0) : Nat × Nat)).1

/-- `MeetingSearchEngine._create_snippet`: extract the best window, add
`"..."` markers when the window does not touch the respective end of the
text, and strip surrounding whitespace. -/
def create_snippet (text query : String) (L : Nat) : String :=
  let bp := best_pos text query L
  let sn := py_slice text bp (bp + L)
  let sn := if 0 < bp then "..." ++ sn else sn
  let sn := if bp + L < text.length then sn ++ "..." else sn
  py_strip sn

/-- `person.split()[0] if person else ""`: `some ""` for the empty
string, the first whitespace-separated word otherwise, and `none` for
the `IndexError` raised when a non-empty name is all whitespace. -/
def person_first (person : String) : Option String :=
  if person.isEmpty then some ""
  else
    match py_split_ws person with
    | [] => none
    | w :: _ => some w

/-- The suffixes of `t` that start immediately after a newline; together
with `t` itself these are the positions where `^` can match under
`re.MULTILINE`. -/
def tails_after_nl : List Char → List (List Char)
  | [] => []
  | c :: rest => (if c = '\n' then [rest] else []) ++ tails_after_nl rest

/-- Does `s` start with `name` followed by `":"` and one whitespace
character, compared case-insensitively? This is the literal reading of
the escaped pattern `"^{name}:\s"` under `re.IGNORECASE`. -/
def name_colon_ws (name s : List Char) : Bool :=
  list_starts ((name.map Char.toLower) ++ [':']) (s.map Char.toLower) &&
    (match s.drop (name.length + 1) with
     | c :: _ => py_is_space c
     | [] => false)

/-- `MeetingSearchEngine._get_speaker_relevance`: 1.0 when one of the
three speaker patterns (full name, first name, uppercased full name)
matches at a line start under `re.MULTILINE | re.IGNORECASE`, else 0.0;
`none` models the `IndexError` of `person.split()[0]`. -/
def get_speaker_relevance (text person : String) : Option ℚ :=
  (person_first person).map fun pf =>
    let starts := text.data :: tails_after_nl text.data
    let pats := [person.data, pf.data, (py_upper person).data]
    if starts.any (fun s => pats.any (fun p => name_colon_ws p s)) then 1 else 0

/-- `MeetingSearchEngine._get_context_relevance`: 0.9 for the high
confidence lowercase patterns, 0.6 when the lowercase name or first name
occurs anywhere, else 0.0; `none` models the `IndexError` of
`person.split()[0]`. -/
def get_context_relevance (text person : String) : Option ℚ :=
  (person_first person).map fun pf =>
    let tl := py_lower text
    let pl := py_lower person
    if py_contains (pl ++ ":") tl || py_contains (pl ++ " said") tl ||
        py_contains (pl ++ " mentioned") tl || py_contains (pl ++ " will") tl then
      mkRat 9 10
    else if py_contains pl tl || py_contains (py_lower pf) tl then mkRat 3 5
    else 0

/-- `MeetingSearchEngine._calculate_single_person_relevance`: collect the
positive speaker and context scores and return their maximum (0.0 when
both are zero). -/
def calculate_single_person_relevance (text person : String) : Option ℚ :=
  match get_speaker_relevance text person with
  | none => none
  | some sp =>
    match get_context_relevance text person with
    | none => none
    | some cx =>
      let scores := (if 0 < sp then [sp] else []) ++ (if 0 < cx then [cx] else [])
      some (match scores with
            | [] => 0
            | v :: rest => rest.foldl max v)

/-- Loop of `_calculate_person_relevance`, folding the running maximum
over the target participants; a raised `IndexError` propagates. -/
def person_relevance_go (text : String) : List String → ℚ → Option ℚ
  | [], acc => some acc
  | p :: rest, acc =>
    match calculate_single_person_relevance text p with
    | none => none
    | some r => person_relevance_go text rest (max acc r)

/-- `MeetingSearchEngine._calculate_person_relevance`: 0.0 for empty text
or an empty participant list, otherwise the maximum single-person
relevance over the list. -/
def calculate_person_relevance (text : String) (parts : List String) : Option ℚ :=
  if text.isEmpty || parts.isEmpty then some 0
  else person_relevance_go text parts 0

/-- Python truthiness of an optional string (`None` and `""` are falsy). -/
def str_truthy (o : Option String) : Bool :=
  match o with
  | some s => !s.isEmpty
  | none => false

/-- The `date_to` comparison at the end of the date block of
`_passes_advanced_filters`; a parse failure is caught by the
surrounding `except` and passes the candidate. -/
def date_to_check (parse : DateParse) (mdate : ℚ) (dt : Option String) : Bool :=
  if str_truthy dt then
    match parse (py_replace (dt.getD "") "Z" "+00:00") with
    | none => true
    | some fdt => !(fdt < mdate)
  else true

/-- The date block of `_passes_advanced_filters`: entered only when a
filter bound is truthy; any `ValueError` inside the `try` aborts the
remaining comparisons and passes the candidate (fail-open). -/
def passes_date_filter (parse : DateParse) (md_date : String)
    (date_from date_to : Option String) : Bool :=
  if str_truthy date_from || str_truthy date_to then
    match parse (py_replace md_date "Z" "+00:00") with
    | none => true
    | some mdate =>
      if str_truthy date_from then
        match parse (py_replace (date_from.getD "") "Z" "+00:00") with
        | none => true
        | some fdf =>
          if mdate < fdf then false
          else date_to_check parse mdate date_to
      else date_to_check parse mdate date_to
  else true

/-- `MeetingSearchEngine._passes_advanced_filters`: relevance threshold,
then the date block, then the participant filter with its 0.3 threshold.
`none` models an exception escaping to `search`'s handler (only the
participant scoring can raise). -/
def passes_advanced_filters (parse : DateParse) (md : Chunk) (score : ℚ)
    (date_from date_to : Option String) (participants : Option (List String))
    (min_relevance : Option ℚ) : Option Bool :=
  if (match min_relevance with
      | some mr => decide (score < mr)
      | none => false) then some false
  else if !passes_date_filter parse md.meeting_date date_from date_to then some false
  else
    match participants with
    | none => some true
    | some ps =>
      if ps.isEmpty then some true
      else
        match calculate_person_relevance md.text ps with
        | none => none
        | some r => if r < mkRat 3 10 then some false else some true

/-- One entry of the list returned by `search`. -/
structure SearchResult where
  meeting_id : String
  meeting_title : String
  meeting_date : String
  content_type : String
  text : String
  participants : List String
  relevance_score : ℚ
  snippet : String
deriving DecidableEq

/-- The result dictionary built for a surviving candidate in `search`. -/
def mk_search_result (md : Chunk) (score : ℚ) (query : String) : SearchResult :=
  { meeting_id := md.meeting_id, meeting_title := md.meeting_title,
    meeting_date := md.meeting_date, content_type := md.content_type,
    text := md.text, participants := md.participants,
    relevance_score := score, snippet := create_snippet md.text query 200 }

/-- The content-type skip of `search`: `if content_types and
metadata['content_type'] not in content_types: continue` (an empty list
is falsy and disables the filter). -/
def content_type_skip (ct : Option (List String)) (md : Chunk) : Bool :=
  match ct with
  | none => false
  | some l => !l.isEmpty && !l.contains md.content_type

/-- The candidate loop of `search` over the `(score, index)` pairs
returned by the FAISS range search, accumulating results and stopping
once `top_k` results are collected; `none` models an exception escaping
to `search`'s handler. -/
def search_loop (parse : DateParse) (meta : List Chunk) (query : String)
    (top_k : Nat) (ct : Option (List String)) (date_from date_to : Option String)
    (participants : Option (List String)) (min_relevance : Option ℚ) :
    List (ℚ × Nat) → List SearchResult → Option (List SearchResult)
  | [], acc => some acc
  | (score, idx) :: rest, acc =>
    match meta.get? idx with
    | none =>
      search_loop parse meta query top_k ct date_from date_to participants
        min_relevance rest acc
    | some md =>
      if content_type_skip ct md then
        search_loop parse meta query top_k ct date_from date_to participants
          min_relevance rest acc
      else
        match passes_advanced_filters parse md score date_from date_to
            participants min_relevance with
        | none => none
        | some false =>
          search_loop parse meta query top_k ct date_from date_to participants
            min_relevance rest acc
        | some true =>
          let acc' := acc ++ [mk_search_result md score query]
          if top_k ≤ acc'.length then some acc'
          else
            search_loop parse meta query top_k ct date_from date_to participants
              min_relevance rest acc'

/-- `MeetingSearchEngine.search`. The query embedding and the FAISS
retrieval of `min(top_k * 2, len(metadata))` nearest neighbours are
external; the candidate `(score, index)` list they produce is passed in
as `cands`. Missing components or an empty metadata list return an empty
list, and an exception raised inside the loop is caught and also yields
an empty list. -/
def search (parse : DateParse) (s : EngineState) (cands : List (ℚ × Nat))
    (query : String) (top_k : Nat) (ct : Option (List String))
    (date_from date_to : Option String) (participants : Option (List String))
    (min_relevance : Option ℚ) : List SearchResult :=
  if !s.encoder || s.index.isNone then []
  else if s.metadata.isEmpty then []
  else
    match search_loop parse s.metadata query top_k ct date_from date_to
        participants min_relevance cands [] with
    | none => []
    | some rs => rs

/-- `MeetingSearchEngine.search_by_meeting_id`: linear scan of the
metadata list for the chunks of one meeting, in stored order (the source
projects each record to a five-field dictionary; the full record is kept
here, which carries the same fields). -/
def search_by_meeting_id (meta : List Chunk) (meeting_id : String) : List Chunk :=
  meta.filter fun md => md.meeting_id = meeting_id

/-- The representative-query loop of `get_similar_meetings`: walk the
meeting's chunks in stored order and break at the first whose type is
`summary` (text taken verbatim) or `transcript` (first 500 characters);
`""` when no such chunk exists. -/
def sim_query_text : List Chunk → String
  | [] => ""
  | c :: rest =>
    if c.content_type = "summary" then c.text
    else if c.content_type = "transcript" then py_slice c.text 0 500
    else sim_query_text rest

/-- The representative query `get_similar_meetings` derives for a
meeting from the current metadata list. -/
def similar_meetings_query_text (meta : List Chunk) (meeting_id : String) : String :=
  sim_query_text (search_by_meeting_id meta meeting_id)

/-- Accumulator of the per-meeting grouping in `get_similar_meetings`. -/
structure GroupAcc where
  meeting_id : String
  meeting_title : String
  meeting_date : String
  participants : List String
  scores : List ℚ
  ctypes : List String
deriving DecidableEq

/-- One entry of the list returned by `get_similar_meetings`. -/
structure SimilarMeeting where
  meeting_id : String
  meeting_title : String
  meeting_date : String
  participants : List String
  matching_content_types : List String
  average_similarity : ℚ
deriving DecidableEq

/-- Insertion into the `matching_content_types` set, modelled as a
duplicate-free list in first-insertion order (the source materialises a
Python `set`, whose iteration order is unspecified). -/
def add_ctype (l : List String) (c : String) : List String :=
  if l.contains c then l else l ++ [c]

/-- Merge one search result into the ordered per-meeting groups,
creating a group on first sight of a meeting id. -/
def add_to_groups (r : SearchResult) : List GroupAcc → List GroupAcc
  | [] =>
    [{ meeting_id := r.meeting_id, meeting_title := r.meeting_title,
       meeting_date := r.meeting_date, participants := r.participants,
       scores := [r.relevance_score], ctypes := [r.content_type] }]
  | g :: gs =>
    if g.meeting_id = r.meeting_id then
      { g with scores := g.scores ++ [r.relevance_score],
               ctypes := add_ctype g.ctypes r.content_type } :: gs
    else g :: add_to_groups r gs

/-- The grouping loop of `get_similar_meetings`, skipping hits of the
reference meeting itself. -/
def collect_groups (ref_id : String) : List SearchResult → List GroupAcc → List GroupAcc
  | [], acc => acc
  | r :: rest, acc =>
    if r.meeting_id = ref_id then collect_groups ref_id rest acc
    else collect_groups ref_id rest (add_to_groups r acc)

/-- Finish one group: average its similarity scores (each group holds at
least one score by construction). -/
def finish_group (g : GroupAcc) : SimilarMeeting :=
  { meeting_id := g.meeting_id, meeting_title := g.meeting_title,
    meeting_date := g.meeting_date, participants := g.participants,
    matching_content_types := g.ctypes,
    average_similarity := (g.scores.foldl (· + ·) 0) / (g.scores.length : ℚ) }

/-- Stable insertion into a list sorted by descending average similarity
(Python `list.sort` is stable). -/
def insert_desc (x : SimilarMeeting) : List SimilarMeeting → List SimilarMeeting
  | [] => [x]
  | y :: ys =>
    if x.average_similarity < y.average_similarity then y :: insert_desc x ys
    else x :: y :: ys

/-- Stable sort by descending average similarity. -/
def sort_desc : List SimilarMeeting → List SimilarMeeting
  | [] => []
  | x :: xs => insert_desc x (sort_desc xs)

/-- `MeetingSearchEngine.get_similar_meetings`: choose the representative
query, search with `top_k * 3`, group the hits by meeting (excluding the
reference meeting), average each group's scores, sort descending and
truncate to `top_k`. -/
def get_similar_meetings (parse : DateParse) (s : EngineState)
    (cands : List (ℚ × Nat)) (meeting_id : String) (top_k : Nat) :
    List SimilarMeeting :=
  let content := search_by_meeting_id s.metadata meeting_id
  if content.isEmpty then []
  else
    let qt := similar_meetings_query_text s.metadata meeting_id
    if qt.isEmpty then []
    else
      let results := search parse s cands qt (top_k * 3) none none none none none
      let groups := collect_groups meeting_id results []
      (sort_desc (groups.map finish_group)).take top_k

/-- A value of the statistics dictionary returned by
`get_search_statistics`. -/
inductive StatValue where
  | nat (n : Nat)
  | rat (q : ℚ)
  | str (s : String)
  | dist (d : List (String × Nat))
deriving DecidableEq

/-- One `content_type_counts[t] = content_type_counts.get(t, 0) + 1`
update on the insertion-ordered count dictionary. -/
def bump_count : List (String × Nat) → String → List (String × Nat)
  | [], k => [(k, 1)]
  | (k', n) :: rest, k =>
    if k' = k then (k', n + 1) :: rest else (k', n) :: bump_count rest k

/-- The `content_type → count` dictionary built by
`get_search_statistics` over the metadata list. -/
def content_type_counts (meta : List Chunk) : List (String × Nat) :=
  meta.foldl (fun acc md => bump_count acc md.content_type) []

/-- Dictionary lookup on the statistics association list. -/
def lookup_stat (l : List (String × StatValue)) (k : String) : Option StatValue :=
  (l.find? fun p => p.1 = k).map (·.2)

/-- Dictionary lookup on a count association list. -/
def lookup_count (l : List (String × Nat)) (k : String) : Option Nat :=
  (l.find? fun p => p.1 = k).map (·.2)

/-- `MeetingSearchEngine.get_search_statistics`: an empty metadata list
returns only the two zero counters; otherwise the six-entry dictionary
is built. The approximate on-disk index size is read from the file
system and enters as the parameter `index_size_mb`. -/
def get_search_statistics (s : EngineState) (index_size_mb : ℚ) :
    List (String × StatValue) :=
  if s.metadata.isEmpty then
    [("total_documents", .nat 0), ("total_meetings", .nat 0)]
  else
    [("total_documents", .nat s.metadata.length),
     ("total_meetings", .nat (s.metadata.map (·.meeting_id)).dedup.length),
     ("content_type_distribution", .dist (content_type_counts s.metadata)),
     ("index_size_mb", .rat index_size_mb),
     ("embedding_dimension", .nat 384),
     ("model_name", .str s.model_name)]

/-- A session record of `SessionManager` (`session.json`); timestamps
live on the integer `time.time()` axis (only ordering and differences
of timestamps enter the session logic). -/
structure Session where
  id : String
  created_at : ℤ
  last_activity : ℤ
  meetings : List String
  search_index_path : String
deriving DecidableEq

/-- The in-memory state of `SessionManager` relevant to session lookup:
the `active_sessions` dictionary (insertion-ordered association list)
and the fixed timeout of 3600 seconds. -/
structure SMState where
  active_sessions : List (String × Session)
  session_timeout : ℤ
deriving DecidableEq

/-- Lookup in the `active_sessions` dictionary. -/
def lookup_session (l : List (String × Session)) (k : String) : Option Session :=
  (l.find? fun p => p.1 = k).map (·.2)

/-- Dictionary assignment `active_sessions[k] = v`: replace in place or
append. -/
def set_session : List (String × Session) → String → Session →
    List (String × Session)
  | [], k, v => [(k, v)]
  | (k', v') :: rest, k, v =>
    if k' = k then (k, v) :: rest else (k', v') :: set_session rest k v

/-- `SessionManager._is_session_expired`:
`(time.time() - last_activity) > session_timeout`. -/
def is_session_expired (st : SMState) (now : ℤ) (sd : Session) : Bool :=
  st.session_timeout < now - sd.last_activity

/-- `SessionManager.get_session`: an in-memory hit sets `last_activity`
to the current time and returns the updated record; a miss loads from
disk (`disk` abstracts `_load_session_data`, with `none` for a missing
or unreadable record) and, when the loaded record is not expired,
promotes it to memory and returns it as loaded. -/
def get_session (disk : String → Option Session) (now : ℤ) (st : SMState)
    (sid : String) : Option Session × SMState :=
  match lookup_session st.active_sessions sid with
  | none =>
    match disk sid with
    | some sd =>
      if !is_session_expired st now sd then
        (some sd, { st with active_sessions := set_session st.active_sessions sid sd })
      else (none, st)
    | none => (none, st)
  | some s =>
    let s' := { s with last_activity := now }
    (some s', { st with active_sessions := set_session st.active_sessions sid s' })

/-! Supporting lemmas. -/

theorem passes_filters_min_rel {parse : DateParse} {md : Chunk} {score : ℚ}
    {df dt : Option String} {parts : Option (List String)} {m : ℚ}
    (h : passes_advanced_filters parse md score df dt parts (some m) = some true) :
    m ≤ score := by
  by_contra hlt
  push_neg at hlt
  simp [passes_advanced_filters, hlt] at h

theorem search_loop_min_rel (parse : DateParse) (meta : List Chunk) (query : String)
    (top_k : Nat) (ct : Option (List String)) (df dt : Option String)
    (parts : Option (List String)) (m : ℚ) :
    ∀ (cands : List (ℚ × Nat)) (acc out : List SearchResult),
      (∀ r ∈ acc, m ≤ r.relevance_score) →
      search_loop parse meta query top_k ct df dt parts (some m) cands acc = some out →
      ∀ r ∈ out, m ≤ r.relevance_score := by
  intro cands
  induction cands with
  | nil =>
    intro acc out hacc hloop r hr
    simp only [search_loop, Option.some.injEq] at hloop
    subst hloop
    exact hacc r hr
  | cons c rest ih =>
    intro acc out hacc hloop r hr
    obtain ⟨score, idx⟩ := c
    simp only [search_loop] at hloop
    split at hloop
    · exact ih acc out hacc hloop r hr
    · rename_i md hget
      split at hloop
      · exact ih acc out hacc hloop r hr
      · split at hloop
        · exact absurd hloop (by simp)
        · exact ih acc out hacc hloop r hr
        · rename_i hpf
          have hacc' : ∀ r' ∈ acc ++ [mk_search_result md score query],
              m ≤ r'.relevance_score := by
            intro r' hr'
            rcases List.mem_append.mp hr' with h1 | h2
            · exact hacc r' h1
            · have heq : r' = mk_search_result md score query := List.mem_singleton.mp h2
              rw [heq]
              exact passes_filters_min_rel hpf
          split at hloop
          · obtain rfl : acc ++ [mk_search_result md score query] = out :=
              Option.some.inj hloop
            exact hacc' r hr
          · exact ih _ out hacc' hloop r hr

/-- C6: every result returned by `search` with `min_relevance = m` has
`relevance_score ≥ m`, for every engine state, candidate list, query and
combination of the other filters. -/
theorem search_min_relevance_threshold (parse : DateParse) (s : EngineState)
    (cands : List (ℚ × Nat)) (query : String) (top_k : Nat)
    (ct : Option (List String)) (df dt : Option String)
    (parts : Option (List String)) (m : ℚ) (r : SearchResult)
    (hr : r ∈ search parse s cands query top_k ct df dt parts (some m)) :
    m ≤ r.relevance_score := by
  unfold search at hr
  by_cases h1 : (!s.encoder || s.index.isNone) = true
  · rw [if_pos h1] at hr; exact absurd hr (by simp)
  · rw [if_neg h1] at hr
    by_cases h2 : s.metadata.isEmpty = true
    · rw [if_pos h2] at hr; exact absurd hr (by simp)
    · rw [if_neg h2] at hr
      cases hloop : search_loop parse s.metadata query top_k ct df dt parts
          (some m) cands [] with
      | none => rw [hloop] at hr; exact absurd hr (by simp)
      | some rs =>
        rw [hloop] at hr
        exact search_loop_min_rel parse s.metadata query top_k ct df dt parts m
          cands [] rs (by simp) hloop r hr

/-- Fixed parse function that fails on every string, modelling
`datetime.fromisoformat` on unparsable input. -/
def parse_fail : DateParse := fun _ => none

/-- A concrete indexed chunk used to instantiate the search theorems. -/
def chunk_report : Chunk :=
  { meeting_id := "m1", meeting_title := "Weekly sync",
    meeting_date := "2024-01-01", content_type := "summary",
    text := "quarterly report status", participants := ["Alice"],
    index_position := 0 }

/-- Engine state holding exactly the chunk `chunk_report`. -/
def engine_one : EngineState :=
  { encoder := true, index := some [[]], metadata := [chunk_report],
    persisted := none, model_name := "all-MiniLM-L6-v2" }

/-- Witness for C6: a concrete search with `min_relevance = 1/2` returns
a result, and the theorem bounds its score. -/
theorem search_min_relevance_threshold_witness :
    ∃ r, r ∈ search parse_fail engine_one [(mkRat 9 10, 0)] "report" 5
        none none none none (some (mkRat 1 2)) ∧
      mkRat 1 2 ≤ r.relevance_score := by
  have hmem : mk_search_result chunk_report (mkRat 9 10) "report" ∈
      search parse_fail engine_one [(mkRat 9 10, 0)] "report" 5
        none none none none (some (mkRat 1 2)) := by decide
  exact ⟨mk_search_result chunk_report (mkRat 9 10) "report", hmem,
    search_min_relevance_threshold parse_fail engine_one [(mkRat 9 10, 0)]
      "report" 5 none none none none (mkRat 1 2) _ hmem⟩

theorem passes_date_filter_none_none (parse : DateParse) (d : String) :
    passes_date_filter parse d none none = true := by
  simp [passes_date_filter, str_truthy]

theorem passes_date_filter_bad_meeting_date (parse : DateParse) (d : String)
    (df dt : Option String) (hd : parse (py_replace d "Z" "+00:00") = none) :
    passes_date_filter parse d df dt = true := by
  unfold passes_date_filter
  split
  · rw [hd]
  · rfl

theorem passes_date_filter_bad_from (parse : DateParse) (d : String)
    (sdf : String) (dt : Option String) (hne : ¬sdf.isEmpty)
    (hdf : parse (py_replace sdf "Z" "+00:00") = none) :
    passes_date_filter parse d (some sdf) dt = true := by
  unfold passes_date_filter
  have ht : str_truthy (some sdf) = true := by simp [str_truthy, hne]
  rw [ht]
  simp only [Bool.true_or, if_true]
  cases hp : parse (py_replace d "Z" "+00:00") with
  | none => rfl
  | some mdate => simp [ht, hdf]

/-- C7: the date filter is fail-open. A candidate whose stored
`meeting_date` does not parse, or a `search` call whose `date_from`
string does not parse, leaves `_passes_advanced_filters` exactly as if
no date bounds had been given: the candidate is not excluded by dates
and no exception escapes the query. -/
theorem date_filter_fail_open (parse : DateParse) (md : Chunk) (score : ℚ)
    (df dt : Option String) (parts : Option (List String)) (mr : Option ℚ) :
    (parse (py_replace md.meeting_date "Z" "+00:00") = none →
      passes_advanced_filters parse md score df dt parts mr =
        passes_advanced_filters parse md score none none parts mr) ∧
    (∀ sdf, df = some sdf → ¬sdf.isEmpty →
      parse (py_replace sdf "Z" "+00:00") = none →
      passes_advanced_filters parse md score df dt parts mr =
        passes_advanced_filters parse md score none none parts mr) := by
  constructor
  · intro hd
    unfold passes_advanced_filters
    rw [passes_date_filter_bad_meeting_date parse md.meeting_date df dt hd,
      passes_date_filter_none_none]
  · intro sdf hdf hne hparse
    subst hdf
    unfold passes_advanced_filters
    rw [passes_date_filter_bad_from parse md.meeting_date sdf dt hne hparse,
      passes_date_filter_none_none]

/-- Parse function recognising exactly the date stored in
`chunk_report`, modelling a store whose dates are valid while a filter
argument is not. -/
def parse_jan : DateParse := fun s => if s = "2024-01-01" then some 1 else none

/-- Witness for C7: with an unparsable stored date, and separately with
a parsable stored date but an unparsable `date_from` argument, the
filter behaves as if no date bounds were given. -/
theorem date_filter_fail_open_witness :
    (passes_advanced_filters parse_fail chunk_report 1 (some "2024-01-01")
        none none none =
      passes_advanced_filters parse_fail chunk_report 1 none none none none) ∧
    (passes_advanced_filters parse_jan chunk_report 1 (some "not-a-date")
        (some "2024-06-06") none none =
      passes_advanced_filters parse_jan chunk_report 1 none none none none) :=
  ⟨(date_filter_fail_open parse_fail chunk_report 1 (some "2024-01-01")
      none none none).1 (by decide),
   (date_filter_fail_open parse_jan chunk_report 1 (some "not-a-date")
      (some "2024-06-06") none none).2 "not-a-date" rfl (by decide) (by decide)⟩

theorem is_sub_list_nil (l : List Char) : is_sub_list [] l = true := by
  cases l <;> simp [is_sub_list, list_starts, List.isEmpty]

theorem isEmpty_empty_string : "".isEmpty = true := by decide

theorem person_first_empty : person_first "" = some "" := by
  unfold person_first
  rw [if_pos isEmpty_empty_string]

theorem context_relevance_empty_name (text : String) :
    ∃ cx, get_context_relevance text "" = some cx ∧ mkRat 3 5 ≤ cx ∧ 0 < cx := by
  have hB : py_contains (py_lower "") (py_lower text) = true := by
    simp [py_contains, py_lower, is_sub_list_nil]
  by_cases hA : (py_contains (py_lower "" ++ ":") (py_lower text) ||
      py_contains (py_lower "" ++ " said") (py_lower text) ||
      py_contains (py_lower "" ++ " mentioned") (py_lower text) ||
      py_contains (py_lower "" ++ " will") (py_lower text)) = true
  · exact ⟨mkRat 9 10,
      by simp [get_context_relevance, person_first_empty, hA], by decide, by decide⟩
  · exact ⟨mkRat 3 5,
      by simp [get_context_relevance, person_first_empty, hA, hB],
      by decide, by decide⟩

theorem single_relevance_empty_name (text : String) :
    ∃ v, calculate_single_person_relevance text "" = some v ∧ mkRat 3 5 ≤ v := by
  obtain ⟨cx, hcx, hge, hpos⟩ := context_relevance_empty_name text
  obtain ⟨sp, hspeq⟩ : ∃ sp, get_speaker_relevance text "" = some sp := by
    unfold get_speaker_relevance
    rw [person_first_empty]
    exact ⟨_, rfl⟩
  unfold calculate_single_person_relevance
  simp only [hspeq, hcx]
  by_cases hsp : 0 < sp
  · rw [if_pos hsp, if_pos hpos]
    refine ⟨_, rfl, ?_⟩
    simp only [List.cons_append, List.nil_append, List.foldl]
    exact le_trans hge (le_max_right sp cx)
  · rw [if_neg hsp, if_pos hpos]
    refine ⟨_, rfl, ?_⟩
    simp only [List.nil_append, List.foldl]
    exact hge

theorem person_relevance_empty_name (text : String) (h : ¬text.isEmpty) :
    ∃ r, calculate_person_relevance text [""] = some r ∧ mkRat 3 5 ≤ r := by
  obtain ⟨v, hv, hge⟩ := single_relevance_empty_name text
  unfold calculate_person_relevance person_relevance_go
  rw [if_neg (by simp [h]), hv]
  simp only [person_relevance_go]
  exact ⟨max 0 v, rfl, le_trans hge (le_max_right 0 v)⟩

/-- C10: for a chunk with non-empty text, the participant relevance of
the empty participant name is at least 0.6, so adding
`participants = [""]` to a search can never turn a passing candidate
into an excluded one via the 0.3 participant threshold. -/
theorem empty_participant_never_filtered (md : Chunk) (h : ¬md.text.isEmpty)
    (parse : DateParse) (score : ℚ) (df dt : Option String) (mr : Option ℚ) :
    (∃ r, calculate_person_relevance md.text [""] = some r ∧ mkRat 3 5 ≤ r) ∧
    (passes_advanced_filters parse md score df dt none mr = some true →
      passes_advanced_filters parse md score df dt (some [""]) mr = some true) := by
  obtain ⟨r, hr, hge⟩ := person_relevance_empty_name md.text h
  refine ⟨⟨r, hr, hge⟩, ?_⟩
  intro hp
  unfold passes_advanced_filters at hp ⊢
  split at hp
  · exact absurd hp (by simp)
  · split at hp
    · exact absurd hp (by simp)
    · rename_i h1 h2
      have hnl : ¬r < mkRat 3 10 := fun hlt =>
        absurd (lt_of_le_of_lt hge hlt) (by decide)
      rw [if_neg h1, if_neg h2]
      simp [hr, hnl]

/-- Witness for C10: the empty participant name scores at least 0.6 on a
concrete chunk, and adding `participants = [""]` keeps the candidate. -/
theorem empty_participant_never_filtered_witness :
    (∃ r, calculate_person_relevance chunk_report.text [""] = some r ∧
      mkRat 3 5 ≤ r) ∧
    passes_advanced_filters parse_fail chunk_report 1 none none
      (some [""]) none = some true :=
  ⟨(empty_participant_never_filtered chunk_report (by decide) parse_fail 1
      none none none).1,
   (empty_participant_never_filtered chunk_report (by decide) parse_fail 1
      none none none).2 (by decide)⟩

/-- C9 (amended): `get_session` refreshes `last_activity` only on an
in-memory hit; a session promoted from disk is returned exactly as
loaded, with its stored `last_activity` unchanged. -/
theorem get_session_last_activity (disk : String → Option Session) (now : ℤ)
    (st : SMState) (sid : String) (s sd : Session) :
    (lookup_session st.active_sessions sid = some s →
      get_session disk now st sid =
        (some { s with last_activity := now },
         { st with active_sessions :=
            set_session st.active_sessions sid { s with last_activity := now } })) ∧
    (lookup_session st.active_sessions sid = none → disk sid = some sd →
      is_session_expired st now sd = false →
      get_session disk now st sid =
        (some sd,
         { st with active_sessions := set_session st.active_sessions sid sd })) := by
  constructor
  · intro hmem
    unfold get_session
    rw [hmem]
  · intro hmem hdisk hexp
    unfold get_session
    simp only [hmem, hdisk, hexp, Bool.not_false, if_true]

/-- A session record stored on disk with `last_activity = 5`. -/
def session_stale : Session :=
  { id := "s1", created_at := 0, last_activity := 5, meetings := [],
    search_index_path := "data/sessions/s1/search_index" }

/-- Disk contents holding exactly `session_stale` under its id. -/
def disk_one : String → Option Session :=
  fun sid => if sid = "s1" then some session_stale else none

/-- Manager state with no in-memory sessions and the fixed one-hour
timeout. -/
def sm_empty : SMState := { active_sessions := [], session_timeout := 3600 }

/-- A session held in memory with `last_activity = 7`. -/
def session_mem : Session :=
  { id := "s2", created_at := 0, last_activity := 7, meetings := [],
    search_index_path := "data/sessions/s2/search_index" }

/-- Manager state holding `session_mem` in memory. -/
def sm_mem : SMState :=
  { active_sessions := [("s2", session_mem)], session_timeout := 3600 }

/-- The record `session_mem` with its activity refreshed to time 100. -/
def session_mem_touched : Session := { session_mem with last_activity := 100 }

/-- Expected manager state after the in-memory hit at time 100. -/
def sm_mem_touched : SMState :=
  { sm_mem with
    active_sessions := set_session sm_mem.active_sessions "s2" session_mem_touched }

/-- Expected manager state after the disk promotion of `session_stale`. -/
def sm_promoted : SMState :=
  { sm_empty with
    active_sessions := set_session sm_empty.active_sessions "s1" session_stale }

/-- Witness for C9 (amended): at time 100 an in-memory hit comes back
with `last_activity = 100`, while a disk promotion comes back with the
stored `last_activity = 5`. -/
theorem get_session_last_activity_witness :
    get_session disk_one 100 sm_mem "s2" = (some session_mem_touched, sm_mem_touched) ∧
    get_session disk_one 100 sm_empty "s1" = (some session_stale, sm_promoted) := by
  constructor
  · exact (get_session_last_activity disk_one 100 sm_mem "s2" session_mem
      session_stale).1 (by decide)
  · exact (get_session_last_activity disk_one 100 sm_empty "s1" session_mem
      session_stale).2 (by decide) (by decide) (by decide)

/-- Counterexample for C9 as stated: at current time 100, the lookup of
session `s1` succeeds by promoting the on-disk record, yet the returned
session's `last_activity` is the stored 5, not the current time 100. -/
theorem get_session_promotion_stale_activity_cex :
    ((get_session disk_one 100 sm_empty "s1").1.map
      (fun s => s.last_activity)) = some 5 ∧ (5 : ℤ) ≠ 100 := by
  constructor
  · decide
  · decide

/-- An embedding step satisfying the documented encoder contract
`encode(list[str]) -> list[vector]`: one vector per input text, and in
particular the empty batch maps to the empty batch instead of raising. -/
def embed_contract : Embedder := fun ts => .ok (ts.map fun _ => ([] : Vec))

/-- A freshly created engine: encoder loaded, empty index, no files on
disk yet. -/
def engine_fresh : EngineState :=
  { encoder := true, index := some [], metadata := [], persisted := none,
    model_name := "all-MiniLM-L6-v2" }

/-- A meeting submission with empty transcript, empty summary and empty
lists for everything, from which extraction produces no text fragments. -/
def meeting_empty : MeetingData :=
  { id := some "m1", title := some "Kickoff", date := some "2024-01-01",
    transcript := "", summary := "", action_items := [], key_decisions := [],
    timelines := [], participants := [] }

/-- C1: evaluation of `add_meeting` on a meeting with no extractable
content. The extraction is empty, yet — because the source guard
`if not searchable_texts:` tests the always-truthy two-key dictionary
instead of the texts list — with an encoder meeting the documented
contract on the empty batch the call returns `True` and writes the
(empty) index and metadata files where none existed, instead of
returning `False` without touching persisted state. -/
theorem add_meeting_empty_content_eval :
    extract_searchable_content meeting_empty = [] ∧
    add_meeting embed_contract "2024-01-01" engine_fresh meeting_empty =
      (true, { engine_fresh with persisted := some ([], []) }) := by
  constructor
  · rfl
  · rfl

/-- A meeting submission carrying searchable transcript text but no
`id` key. -/
def meeting_no_id : MeetingData :=
  { id := none, title := none, date := none, transcript := "hello",
    summary := "", action_items := [], key_decisions := [], timelines := [],
    participants := [] }

/-- C2: evaluation of `add_meeting` on a meeting with searchable content
but a missing `id` key, starting from the empty engine. The vectors are
added to the FAISS index before `meeting_data['id']` is read, so the
`KeyError` leaves the call returning `False` with one vector in the
Vector Index and zero records in the Document Store — the alignment
invariant is violated by a single failing call. -/
theorem add_meeting_missing_id_misaligns_eval :
    (add_meeting embed_contract "2024-01-01" engine_fresh meeting_no_id).1 = false ∧
    ((add_meeting embed_contract "2024-01-01" engine_fresh meeting_no_id).2.index.getD
      []).length = 1 ∧
    (add_meeting embed_contract "2024-01-01" engine_fresh
      meeting_no_id).2.metadata.length = 0 := by
  refine ⟨rfl, rfl, rfl⟩

/-- The chunk types at which the representative-query loop of
`get_similar_meetings` breaks. -/
def sum_or_trans (c : Chunk) : Bool :=
  c.content_type = "summary" || c.content_type = "transcript"

theorem sim_query_text_find (l : List Chunk) (c : Chunk)
    (h : l.find? sum_or_trans = some c) :
    sim_query_text l =
      (if c.content_type = "summary" then c.text else py_slice c.text 0 500) := by
  induction l with
  | nil => exact absurd h (by simp)
  | cons x rest ih =>
    by_cases hx : sum_or_trans x = true
    · rw [List.find?_cons_of_pos _ hx] at h
      obtain rfl : x = c := Option.some.inj h
      by_cases hs : x.content_type = "summary"
      · rw [if_pos hs]
        unfold sim_query_text
        rw [if_pos hs]
      · have ht : x.content_type = "transcript" := by
          unfold sum_or_trans at hx
          rcases Bool.or_eq_true_iff.mp hx with h1 | h2
          · exact absurd (by exact decide_eq_true_eq.mp h1) hs
          · exact decide_eq_true_eq.mp h2
        rw [if_neg hs]
        unfold sim_query_text
        rw [if_neg (by simp [hs]), if_pos (by simp [ht])]
    · rw [List.find?_cons_of_neg _ hx] at h
      have hns : ¬x.content_type = "summary" := by
        intro hs
        exact hx (by simp [sum_or_trans, hs])
      have hnt : ¬x.content_type = "transcript" := by
        intro ht
        exact hx (by simp [sum_or_trans, ht])
      unfold sim_query_text
      rw [if_neg (by simp [hns]), if_neg (by simp [hnt])]
      exact ih h

theorem sim_query_text_find_none (l : List Chunk)
    (h : l.find? sum_or_trans = none) : sim_query_text l = "" := by
  induction l with
  | nil => rfl
  | cons x rest ih =>
    rw [List.find?_cons] at h
    cases hx : sum_or_trans x with
    | true => rw [hx] at h; exact absurd h (by simp)
    | false =>
      rw [hx] at h
      have hns : ¬x.content_type = "summary" := by
        intro hs
        simp [sum_or_trans, hs] at hx
      have hnt : ¬x.content_type = "transcript" := by
        intro ht
        simp [sum_or_trans, ht] at hx
      unfold sim_query_text
      rw [if_neg (by simp [hns]), if_neg (by simp [hnt])]
      exact ih h

/-- C3 (amended): the representative query of `get_similar_meetings` is
taken from the first chunk in stored order whose type is `summary` or
`transcript` — verbatim for a summary chunk, the first 500 characters
for a transcript chunk (so a meeting whose transcript chunks precede its
summary chunk uses the transcript, not the summary) — and the result is
empty when no such chunk exists. -/
theorem similar_meetings_query_selection (parse : DateParse) (s : EngineState)
    (cands : List (ℚ × Nat)) (mid : String) (top_k : Nat) (c : Chunk) :
    ((search_by_meeting_id s.metadata mid).find? sum_or_trans = some c →
      similar_meetings_query_text s.metadata mid =
        (if c.content_type = "summary" then c.text else py_slice c.text 0 500)) ∧
    ((search_by_meeting_id s.metadata mid).find? sum_or_trans = none →
      get_similar_meetings parse s cands mid top_k = []) := by
  constructor
  · intro h
    exact sim_query_text_find _ c h
  · intro h
    unfold get_similar_meetings
    by_cases he : (search_by_meeting_id s.metadata mid).isEmpty = true
    · rw [if_pos he]
    · rw [if_neg he]
      have hq : similar_meetings_query_text s.metadata mid = "" :=
        sim_query_text_find_none _ h
      rw [if_pos (by rw [hq]; exact isEmpty_empty_string)]

/-- A transcript chunk of meeting `m1`, stored before its summary chunk
as `_extract_searchable_content` emits them. -/
def chunk_tr : Chunk :=
  { meeting_id := "m1", meeting_title := "T", meeting_date := "2024-01-01",
    content_type := "transcript", text := "Alpha beta gamma",
    participants := [], index_position := 0 }

/-- The summary chunk of meeting `m1`. -/
def chunk_sum : Chunk :=
  { meeting_id := "m1", meeting_title := "T", meeting_date := "2024-01-01",
    content_type := "summary", text := "The summary", participants := [],
    index_position := 1 }

/-- Engine whose store holds the transcript chunk then the summary chunk
of meeting `m1`. -/
def engine_ts : EngineState :=
  { encoder := true, index := some [[], []], metadata := [chunk_tr, chunk_sum],
    persisted := none, model_name := "all-MiniLM-L6-v2" }

/-- Counterexample for C3 as stated: meeting `m1` has both a summary
chunk and a transcript chunk, yet the representative query equals the
transcript text (its first 500 characters), not the summary text,
because the loop breaks at the transcript chunk stored first. -/
theorem similar_meetings_transcript_first_cex :
    chunk_sum ∈ search_by_meeting_id engine_ts.metadata "m1" ∧
    chunk_sum.content_type = "summary" ∧
    chunk_tr.content_type = "transcript" ∧
    similar_meetings_query_text engine_ts.metadata "m1" = chunk_tr.text ∧
    chunk_tr.text ≠ chunk_sum.text := by
  refine ⟨by decide, rfl, rfl, by decide, by decide⟩

/-- An action-item chunk of meeting `m2` (no summary or transcript). -/
def chunk_act : Chunk :=
  { meeting_id := "m2", meeting_title := "T2", meeting_date := "2024-01-02",
    content_type := "action_item", text := "Ship report", participants := [],
    index_position := 0 }

/-- Engine whose store holds only the action-item chunk of `m2`. -/
def engine_act : EngineState :=
  { encoder := true, index := some [[]], metadata := [chunk_act],
    persisted := none, model_name := "all-MiniLM-L6-v2" }

/-- Witness for C3 (amended): on `engine_ts` the first
summary-or-transcript chunk is the transcript chunk and the query is its
500-character slice; on `engine_act` no such chunk exists and
`get_similar_meetings` returns the empty list. -/
theorem similar_meetings_query_selection_witness :
    similar_meetings_query_text engine_ts.metadata "m1" =
      (if chunk_tr.content_type = "summary" then chunk_tr.text
       else py_slice chunk_tr.text 0 500) ∧
    get_similar_meetings parse_fail engine_act [] "m2" 5 = [] :=
  ⟨(similar_meetings_query_selection parse_fail engine_ts [] "m1" 5 chunk_tr).1
      (by decide),
   (similar_meetings_query_selection parse_fail engine_act [] "m2" 5 chunk_tr).2
      (by decide)⟩

theorem lookup_count_cons (k' : String) (n : Nat) (rest : List (String × Nat))
    (ct : String) :
    lookup_count ((k', n) :: rest) ct =
      if k' = ct then some n else lookup_count rest ct := by
  by_cases h : k' = ct
  · simp [lookup_count, List.find?, h]
  · simp [lookup_count, List.find?, h]

theorem count_bump (acc : List (String × Nat)) (k ct : String) :
    (lookup_count (bump_count acc k) ct).getD 0 =
      (lookup_count acc ct).getD 0 + (if ct = k then 1 else 0) := by
  induction acc with
  | nil =>
    rw [show bump_count [] k = [(k, 1)] from rfl, lookup_count_cons]
    by_cases h : ct = k
    · subst h
      simp [lookup_count]
    · have hk : ¬k = ct := fun hk => h hk.symm
      simp [lookup_count, hk, h]
  | cons p rest ih =>
    obtain ⟨k', n⟩ := p
    by_cases hk : k' = k
    · subst hk
      rw [show bump_count ((k', n) :: rest) k' = (k', n + 1) :: rest from
          by simp [bump_count]]
      rw [lookup_count_cons, lookup_count_cons]
      by_cases hct : k' = ct
      · rw [if_pos hct, if_pos hct, if_pos hct.symm]
        simp
      · rw [if_neg hct, if_neg hct, if_neg (fun h : ct = k' => hct h.symm)]
        simp
    · rw [show bump_count ((k', n) :: rest) k = (k', n) :: bump_count rest k from
          by simp [bump_count, hk]]
      rw [lookup_count_cons, lookup_count_cons]
      by_cases hct : k' = ct
      · have hind : ¬ct = k := fun h => hk (hct.trans h)
        rw [if_pos hct, if_pos hct, if_neg hind]
        simp
      · rw [if_neg hct, if_neg hct]
        exact ih

theorem count_fold (meta : List Chunk) (ct : String) :
    ∀ acc : List (String × Nat),
      (lookup_count (meta.foldl (fun a md => bump_count a md.content_type) acc)
        ct).getD 0 =
      (lookup_count acc ct).getD 0 +
        meta.countP (fun md => md.content_type = ct) := by
  induction meta with
  | nil => intro acc; simp
  | cons md rest ih =>
    intro acc
    rw [List.foldl_cons, ih (bump_count acc md.content_type), count_bump,
      List.countP_cons]
    have heq : (if ct = md.content_type then 1 else 0) =
        (if decide (md.content_type = ct) = true then 1 else 0) := by
      by_cases h : ct = md.content_type
      · simp [h]
      · have hsym : ¬md.content_type = ct := fun hh => h hh.symm
        simp [h, hsym]
    rw [heq]
    omega

theorem content_type_counts_spec (meta : List Chunk) (ct : String) :
    (lookup_count (content_type_counts meta) ct).getD 0 =
      meta.countP (fun md => md.content_type = ct) := by
  have h := count_fold meta ct []
  simpa [lookup_count] using h

/-- C8 (amended): on a non-empty index `get_search_statistics` returns
the six-entry record — chunk count, distinct-meeting count, a
content-type distribution whose count for every type equals the number
of chunks of that type, the on-disk size, the embedding dimension and
the model name — while on the zero-chunk index it returns, without
error, only the two zero counters. -/
theorem get_search_statistics_spec (s : EngineState) (index_size_mb : ℚ) :
    (s.metadata = [] →
      get_search_statistics s index_size_mb =
        [("total_documents", .nat 0), ("total_meetings", .nat 0)]) ∧
    (s.metadata ≠ [] →
      lookup_stat (get_search_statistics s index_size_mb) "total_documents" =
        some (.nat s.metadata.length) ∧
      lookup_stat (get_search_statistics s index_size_mb) "total_meetings" =
        some (.nat (s.metadata.map (·.meeting_id)).dedup.length) ∧
      lookup_stat (get_search_statistics s index_size_mb)
          "content_type_distribution" =
        some (.dist (content_type_counts s.metadata)) ∧
      (∀ ct, (lookup_count (content_type_counts s.metadata) ct).getD 0 =
        s.metadata.countP (fun md => md.content_type = ct)) ∧
      lookup_stat (get_search_statistics s index_size_mb) "index_size_mb" =
        some (.rat index_size_mb) ∧
      lookup_stat (get_search_statistics s index_size_mb) "embedding_dimension" =
        some (.nat 384) ∧
      lookup_stat (get_search_statistics s index_size_mb) "model_name" =
        some (.str s.model_name)) := by
  constructor
  · intro h
    unfold get_search_statistics
    rw [if_pos (by simp [h])]
  · intro h
    have hne : s.metadata.isEmpty = false := by
      cases hm : s.metadata with
      | nil => exact absurd hm h
      | cons a l => rfl
    unfold get_search_statistics
    rw [hne]
    refine ⟨?_, ?_, ?_, fun ct => content_type_counts_spec s.metadata ct, ?_, ?_, ?_⟩ <;>
      simp [lookup_stat, List.find?]

/-- Witness for C8 (amended): the one-chunk engine reports its document
count and model name through the statistics record. -/
theorem get_search_statistics_spec_witness :
    lookup_stat (get_search_statistics engine_one (mkRat 3 2)) "total_documents" =
      some (.nat engine_one.metadata.length) ∧
    lookup_stat (get_search_statistics engine_one (mkRat 3 2)) "model_name" =
      some (.str engine_one.model_name) :=
  ⟨((get_search_statistics_spec engine_one (mkRat 3 2)).2 (by decide)).1,
   ((get_search_statistics_spec engine_one (mkRat 3 2)).2 (by decide)).2.2.2.2.2.2⟩

/-- Counterexample for C8 as stated: on the zero-chunk index the
returned record holds only the two zero counters; the content-type
distribution, index size, embedding dimension and model identifier are
absent rather than present with zero counts. -/
theorem get_search_statistics_empty_missing_fields_cex :
    get_search_statistics engine_fresh 0 =
      [("total_documents", .nat 0), ("total_meetings", .nat 0)] ∧
    lookup_stat (get_search_statistics engine_fresh 0) "embedding_dimension" =
      none ∧
    lookup_stat (get_search_statistics engine_fresh 0) "model_name" = none ∧
    lookup_stat (get_search_statistics engine_fresh 0)
      "content_type_distribution" = none := by
  refine ⟨rfl, rfl, rfl, rfl⟩

theorem str_append_assoc (a b c : String) : a ++ b ++ c = a ++ (b ++ c) := by
  apply String.ext
  simp

theorem str_empty_append (a : String) : "" ++ a = a := by
  apply String.ext
  simp

theorem str_append_empty (a : String) : a ++ "" = a := by
  apply String.ext
  simp

theorem best_fold_spec (f : Nat → Nat) (l : List Nat) :
    ∀ bp mm : Nat, mm ≤ f bp →
      (l.foldl (fun acc i => if acc.2 < f i then (i, f i) else acc) (bp, mm)).2 ≤
        f (l.foldl (fun acc i => if acc.2 < f i then (i, f i) else acc) (bp, mm)).1 ∧
      mm ≤ (l.foldl (fun acc i => if acc.2 < f i then (i, f i) else acc) (bp, mm)).2 ∧
      ∀ i ∈ l,
        f i ≤ (l.foldl (fun acc i => if acc.2 < f i then (i, f i) else acc) (bp, mm)).2 := by
  induction l with
  | nil =>
    intro bp mm h
    exact ⟨h, le_refl mm, by simp⟩
  | cons j rest ih =>
    intro bp mm h
    rw [List.foldl_cons]
    by_cases hj : mm < f j
    · rw [if_pos hj]
      obtain ⟨h1, h2, h3⟩ := ih j (f j) (le_refl (f j))
      refine ⟨h1, le_trans (le_of_lt hj) h2, ?_⟩
      intro i hi
      rcases List.mem_cons.mp hi with rfl | hmem
      · exact h2
      · exact h3 i hmem
    · rw [if_neg hj]
      obtain ⟨h1, h2, h3⟩ := ih bp mm h
      refine ⟨h1, h2, ?_⟩
      intro i hi
      rcases List.mem_cons.mp hi with rfl | hmem
      · exact le_trans (Nat.le_of_not_lt hj) h2
      · exact h3 i hmem

theorem list_starts_take (l : List Char) : ∀ n, list_starts (l.take n) l = true := by
  induction l with
  | nil => intro n; simp [list_starts]
  | cons c t ih =>
    intro n
    cases n with
    | zero => simp [list_starts]
    | succ n => simp [list_starts, ih n]

theorem is_sub_list_take_drop (l : List Char) :
    ∀ a b, is_sub_list ((l.drop a).take b) l = true := by
  induction l with
  | nil =>
    intro a b
    simp [is_sub_list, List.isEmpty]
  | cons c t ih =>
    intro a b
    cases a with
    | zero =>
      cases b with
      | zero => simp [is_sub_list, list_starts]
      | succ b =>
        simp only [List.drop_zero, List.take_succ_cons, is_sub_list, list_starts]
        simp [list_starts_take t b]
    | succ a =>
      simp only [List.drop_succ_cons, is_sub_list]
      simp [ih a b]

/-- C5 (amended): the snippet window chosen by `_create_snippet`
maximises the number of query words it contains counted with
multiplicity over the whitespace-split lowercased query (earliest
maximising offset); the returned snippet is that window with a `"..."`
marker in front iff the window does not start at offset 0 and after it
iff it does not reach the end of the text, whitespace-stripped; and the
window itself is a substring of the chunk text. -/
theorem create_snippet_spec (text query : String) :
    (∀ i ∈ List.range (text.length + 1 - 200),
      snippet_score text query 200 i ≤
        snippet_score text query 200 (best_pos text query 200)) ∧
    create_snippet text query 200 =
      py_strip ((if 0 < best_pos text query 200 then "..." else "") ++
        py_slice text (best_pos text query 200) (best_pos text query 200 + 200) ++
        (if best_pos text query 200 + 200 < text.length then "..." else "")) ∧
    py_contains
      (py_slice text (best_pos text query 200) (best_pos text query 200 + 200))
      text = true := by
  refine ⟨?_, ?_, ?_⟩
  · intro i hi
    obtain ⟨h1, _, h3⟩ := best_fold_spec (snippet_score text query 200)
      (List.range (text.length + 1 - 200)) 0 0 (Nat.zero_le _)
    exact le_trans (h3 i hi) h1
  · simp only [create_snippet]
    by_cases hp : 0 < best_pos text query 200
    · rw [if_pos hp, if_pos hp]
      by_cases hq : best_pos text query 200 + 200 < text.length
      · rw [if_pos hq, if_pos hq, str_append_assoc]
      · rw [if_neg hq, if_neg hq, str_append_empty]
    · rw [if_neg hp, if_neg hp, str_empty_append]
      by_cases hq : best_pos text query 200 + 200 < text.length
      · rw [if_pos hq, if_pos hq]
      · rw [if_neg hq, if_neg hq, str_append_empty]
  · unfold py_contains py_slice
    exact is_sub_list_take_drop text.data (best_pos text query 200) _

/-- Spec-side definition, following the claim's wording: the number of
distinct query words (whitespace-split lowercased query, duplicates
removed) contained in a window. -/
def distinct_word_count (query window : String) : Nat :=
  ((py_split_ws (py_lower query)).dedup.filter
    (fun w => py_contains w (py_lower window))).length

/-- A 207-character text whose first 200-character window contains only
the duplicated query word `aa`, while the window at offset 7 contains
the two distinct words `bb` and `cc`. -/
def text_snip : String := "aa" ++ String.mk (List.replicate 199 'z') ++ " bb cc"

/-- A query with a duplicated word. -/
def query_snip : String := "aa aa bb cc"

/-- Counterexample for C5 as stated: the scan picks offset 0 (the `aa`
window scores 2 by multiplicity, and later windows never score strictly
more), yet the window at offset 7 contains two distinct query words
against one at offset 0 — so the chosen window does not maximise the
count of distinct query words. -/
theorem snippet_distinct_count_cex :
    best_pos text_snip query_snip 200 = 0 ∧
    create_snippet text_snip query_snip 200 = py_slice text_snip 0 200 ++ "..." ∧
    distinct_word_count query_snip (py_slice text_snip 0 200) = 1 ∧
    distinct_word_count query_snip (py_slice text_snip 7 207) = 2 ∧
    7 ∈ List.range (text_snip.length + 1 - 200) := by
  refine ⟨by decide, by decide, by decide, by decide, by decide⟩

/-- Witness for C5 (amended): on the concrete text and query the window
at offset 3 scores no more than the chosen window, and the snippet has
the stated shape and containment. -/
theorem create_snippet_spec_witness :
    snippet_score text_snip query_snip 200 3 ≤
      snippet_score text_snip query_snip 200 (best_pos text_snip query_snip 200) ∧
    create_snippet text_snip query_snip 200 =
      py_strip ((if 0 < best_pos text_snip query_snip 200 then "..." else "") ++
        py_slice text_snip (best_pos text_snip query_snip 200)
          (best_pos text_snip query_snip 200 + 200) ++
        (if best_pos text_snip query_snip 200 + 200 < text_snip.length
         then "..." else "")) ∧
    py_contains
      (py_slice text_snip (best_pos text_snip query_snip 200)
        (best_pos text_snip query_snip 200 + 200)) text_snip = true :=
  ⟨(create_snippet_spec text_snip query_snip).1 3 (by decide),
   (create_snippet_spec text_snip query_snip).2.1,
   (create_snippet_spec text_snip query_snip).2.2⟩

theorem filterMap_transcript_nil {l : List (String × String)}
    (h : ∀ p ∈ l, ¬p.2 = "transcript") :
    l.filterMap (fun p => if p.2 = "transcript" then some p.1 else none) = [] := by
  rw [List.filterMap_eq_nil_iff]
  intro p hp
  rw [if_neg (h p hp)]

theorem mem_summary_pairs {su : String} {p : String × String}
    (hp : p ∈ summary_pairs su) : p.2 = "summary" := by
  unfold summary_pairs at hp
  split at hp
  · exact absurd hp (by simp)
  · obtain rfl := List.mem_singleton.mp hp
    rfl

theorem mem_action_item_pairs {items : List ActionItem} {p : String × String}
    (hp : p ∈ action_item_pairs items) : p.2 = "action_item" := by
  unfold action_item_pairs at hp
  obtain ⟨it, _, hit⟩ := List.mem_filterMap.mp hp
  dsimp only at hit
  split at hit
  · exact absurd hit (by simp)
  · obtain rfl := Option.some.inj hit
    rfl

theorem mem_decision_pairs {ds : List String} {p : String × String}
    (hp : p ∈ decision_pairs ds) : p.2 = "decision" := by
  unfold decision_pairs at hp
  obtain ⟨d, _, hd⟩ := List.mem_filterMap.mp hp
  dsimp only at hd
  split at hd
  · exact absurd hd (by simp)
  · obtain rfl := Option.some.inj hd
    rfl

theorem mem_timeline_pairs {ts : List TimelineItem} {p : String × String}
    (hp : p ∈ timeline_pairs ts) : p.2 = "timeline" := by
  unfold timeline_pairs at hp
  obtain ⟨tl, _, htl⟩ := List.mem_filterMap.mp hp
  dsimp only at htl
  split at htl
  · exact absurd htl (by simp)
  · obtain rfl := Option.some.inj htl
    rfl

theorem transcript_texts_eq (m : MeetingData) :
    transcript_texts m = (transcript_pairs m.transcript).filterMap
      (fun p => if p.2 = "transcript" then some p.1 else none) := by
  unfold transcript_texts extract_searchable_content
  rw [List.filterMap_append, List.filterMap_append, List.filterMap_append,
    List.filterMap_append]
  have hs : (summary_pairs m.summary).filterMap
      (fun p => if p.2 = "transcript" then some p.1 else none) = [] :=
    filterMap_transcript_nil (fun p hp => by rw [mem_summary_pairs hp]; decide)
  have ha : (action_item_pairs m.action_items).filterMap
      (fun p => if p.2 = "transcript" then some p.1 else none) = [] :=
    filterMap_transcript_nil (fun p hp => by rw [mem_action_item_pairs hp]; decide)
  have hd : (decision_pairs m.key_decisions).filterMap
      (fun p => if p.2 = "transcript" then some p.1 else none) = [] :=
    filterMap_transcript_nil (fun p hp => by rw [mem_decision_pairs hp]; decide)
  have ht : (timeline_pairs m.timelines).filterMap
      (fun p => if p.2 = "transcript" then some p.1 else none) = [] :=
    filterMap_transcript_nil (fun p hp => by rw [mem_timeline_pairs hp]; decide)
  rw [hs, ha, hd, ht]
  simp

theorem smart_chunk_text_length_le (t : String) (tc ov : Nat) :
    (smart_chunk_text t tc ov).length ≤ tc := by
  unfold smart_chunk_text
  exact List.length_take_le _ _

/-- C4 (amended): for a non-empty transcript of length at most 2000 the
extraction step indexes exactly one `transcript` chunk, the transcript
verbatim; for a longer transcript it indexes at most 8 `transcript`
chunks (the per-chunk 800-character lower bound asserted by the
specification does not hold — see the counterexample). -/
theorem transcript_chunking_bounds (m : MeetingData) (h : ¬m.transcript.isEmpty) :
    (m.transcript.length ≤ 2000 → transcript_texts m = [m.transcript]) ∧
    (2000 < m.transcript.length → (transcript_texts m).length ≤ 8) := by
  constructor
  · intro hlen
    rw [transcript_texts_eq]
    unfold transcript_pairs
    rw [if_neg h, if_pos hlen]
    simp
  · intro hlen
    rw [transcript_texts_eq]
    unfold transcript_pairs
    rw [if_neg h, if_neg (by omega : ¬m.transcript.length ≤ 2000)]
    rw [List.filterMap_map]
    have hcomp : ((fun p : String × String =>
        if p.2 = "transcript" then some p.1 else none) ∘
        (fun c => (c, "transcript"))) = some := by
      funext c
      simp
    rw [hcomp, List.filterMap_some]
    exact smart_chunk_text_length_le m.transcript 8 300

/-- A meeting whose transcript is one short sentence. -/
def meeting_short : MeetingData :=
  { id := some "m1", title := some "Standup", date := some "2024-01-01",
    transcript := "Alice: ship it", summary := "", action_items := [],
    key_decisions := [], timelines := [], participants := ["Alice"] }

/-- Witness for C4 (amended): a concrete 14-character transcript is
indexed as exactly one verbatim `transcript` chunk. -/
theorem transcript_chunking_bounds_witness :
    transcript_texts meeting_short = [meeting_short.transcript] :=
  (transcript_chunking_bounds meeting_short (by decide)).1 (by decide)

/-- The 2052-character transcript `"a" * 50 ++ ". " ++ "b" * 2000`. -/
def t_long : String :=
  String.mk (List.replicate 50 'a') ++ ". " ++ String.mk (List.replicate 2000 'b')

/-- A meeting carrying only the long transcript. -/
def meeting_long : MeetingData :=
  { id := some "m1", title := none, date := none, transcript := t_long,
    summary := "", action_items := [], key_decisions := [], timelines := [],
    participants := [] }

theorem t_long_data :
    t_long.data = List.replicate 50 'a' ++
      ('.' :: ' ' :: List.replicate 2000 'b') := by
  show (String.mk (List.replicate 50 'a') ++ ". " ++
    String.mk (List.replicate 2000 'b')).data = _
  rw [String.data_append, String.data_append]
  rw [show (". " : String).data = ['.', ' '] from rfl]
  simp [List.append_assoc]

theorem t_long_length : t_long.data.length = 2052 := by
  rw [t_long_data]
  simp

theorem break_at_cons (sep : List Char) (c : Char) (rest : List Char) :
    break_at sep (c :: rest) =
      (if list_starts sep (c :: rest) = true then
        some ([], (c :: rest).drop sep.length)
       else
        match break_at sep rest with
        | none => none
        | some (b, a) => some (c :: b, a)) := rfl

theorem break_at_replicate_skip (c : Char) (hc : ¬c = '.') (n : Nat)
    (l : List Char) :
    break_at ['.', ' '] (List.replicate n c ++ l) =
      (break_at ['.', ' '] l).map (fun p => (List.replicate n c ++ p.1, p.2)) := by
  induction n with
  | zero =>
    simp only [List.replicate, List.nil_append]
    cases h : break_at ['.', ' '] l with
    | none => simp
    | some p => simp
  | succ n ih =>
    rw [List.replicate_succ, List.cons_append, break_at_cons]
    have hns : list_starts ['.', ' ']
        (c :: (List.replicate n c ++ l)) = false := by
      unfold list_starts
      rw [decide_eq_false (fun h : '.' = c => hc h.symm)]
      rfl
    rw [hns]
    simp only [Bool.false_eq_true, if_false]
    rw [ih]
    cases h : break_at ['.', ' '] l with
    | none => rfl
    | some p =>
      obtain ⟨b, a⟩ := p
      simp [List.replicate_succ]

theorem break_at_replicate_none (c : Char) (hc : ¬c = '.') (n : Nat) :
    break_at ['.', ' '] (List.replicate n c) = none := by
  have h := break_at_replicate_skip c hc n []
  rw [List.append_nil] at h
  rw [h]
  rfl

theorem break_at_t_long :
    break_at ['.', ' '] t_long.data =
      some (List.replicate 50 'a', List.replicate 2000 'b') := by
  rw [t_long_data, break_at_replicate_skip 'a' (by decide) 50]
  have hdot : break_at ['.', ' '] ('.' :: ' ' :: List.replicate 2000 'b') =
      some ([], List.replicate 2000 'b') := by
    unfold break_at
    rw [show list_starts ['.', ' '] ('.' :: ' ' :: List.replicate 2000 'b') = true
      from by simp [list_starts]]
    simp
  rw [hdot]
  simp

theorem split_fuel_succ (sep : List Char) (fuel : Nat) (s : List Char) :
    split_fuel sep (fuel + 1) s =
      (match break_at sep s with
       | none => [s]
       | some (b, a) => b :: split_fuel sep fuel a) := rfl

theorem py_split_on_t_long :
    py_split_on ". " t_long =
      [String.mk (List.replicate 50 'a'), String.mk (List.replicate 2000 'b')] := by
  unfold py_split_on
  rw [t_long_length]
  rw [show (". " : String).data = ['.', ' '] from rfl]
  rw [split_fuel_succ, break_at_t_long]
  show List.map String.mk (List.replicate 50 'a' ::
    split_fuel ['.', ' '] 2052 (List.replicate 2000 'b')) = _
  rw [show (2052 : Nat) = 2051 + 1 from rfl, split_fuel_succ,
    break_at_replicate_none 'b' (by decide) 2000]
  rfl

theorem dropWhile_dot_replicate (n : Nat) (c : Char) (hc : ¬c = '.') :
    (List.replicate n c).dropWhile (fun x => x = '.') = List.replicate n c := by
  cases n with
  | zero => rfl
  | succ n =>
    rw [List.replicate_succ, List.dropWhile_cons]
    simp [hc]

theorem py_strip_dot_replicate (n : Nat) (c : Char) (hc : ¬c = '.') :
    py_strip_dot (String.mk (List.replicate n c)) =
      String.mk (List.replicate n c) := by
  unfold py_strip_dot
  rw [show (String.mk (List.replicate n c)).data = List.replicate n c from rfl]
  rw [dropWhile_dot_replicate n c hc, List.reverse_replicate,
    dropWhile_dot_replicate n c hc, List.reverse_replicate]

theorem mk_replicate_length (n : Nat) (c : Char) :
    (String.mk (List.replicate n c)).length = n := by
  show (List.replicate n c).length = n
  simp

theorem smart_chunk_t_long :
    smart_chunk_text t_long 8 300 =
      [String.mk (List.replicate 50 'a') ++ ".",
       String.mk (List.replicate 2000 'b') ++ "."] := by
  simp only [smart_chunk_text]
  rw [show t_long.length = 2052 from t_long_length, py_split_on_t_long]
  rw [show max ((2052 : Nat) / 8) 800 = 800 from max_eq_right (by norm_num)]
  rw [List.foldl_cons, List.foldl_cons, List.foldl_nil]
  have step1 : smart_chunk_step 800 300 ([], [], 0)
      (String.mk (List.replicate 50 'a')) =
      ([], [String.mk (List.replicate 50 'a')], 50) := by
    unfold smart_chunk_step
    dsimp only
    rw [mk_replicate_length, py_strip_dot_replicate 50 'a' (by decide)]
    rw [if_neg (show ¬((800 < 0 + 50 : Bool) &&
      !([] : List String).isEmpty) = true from by decide)]
    rfl
  rw [step1]
  have step2 : smart_chunk_step 800 300
      ([], [String.mk (List.replicate 50 'a')], 50)
      (String.mk (List.replicate 2000 'b')) =
      ([String.mk (List.replicate 50 'a') ++ "."],
       [String.mk (List.replicate 2000 'b')], 2000) := by
    unfold smart_chunk_step
    dsimp only
    rw [mk_replicate_length, py_strip_dot_replicate 2000 'b' (by decide)]
    rw [if_pos (show ((800 < 50 + 2000 : Bool) &&
      !([String.mk (List.replicate 50 'a')] : List String).isEmpty) = true
      from by decide)]
    rw [if_neg (show ¬((!([] : List String).isEmpty) &&
      (0 < 300 : Bool)) = true from by decide)]
    rfl
  rw [step2]
  rw [if_neg (show ¬([String.mk (List.replicate 2000 'b')] :
    List String).isEmpty = true from by decide)]
  rfl

theorem append_dot_length (n : Nat) (c : Char) :
    (String.mk (List.replicate n c) ++ ".").length = n + 1 := by
  show ((String.mk (List.replicate n c) ++ ".").data).length = n + 1
  rw [String.data_append]
  simp

/-- Counterexample for C4 as stated: the 2052-character transcript
`"a" * 50 ++ ". " ++ "b" * 2000` is longer than 2000 characters, yet its
first indexed `transcript` chunk — which is not the last, there being
two — has only 51 characters, far below the claimed 800-character
minimum for non-final chunks. -/
theorem transcript_chunk_below_min_cex :
    2000 < meeting_long.transcript.length ∧
    (transcript_texts meeting_long).length = 2 ∧
    ((transcript_texts meeting_long).headD "").length = 51 ∧ 51 < 800 := by
  have htexts : transcript_texts meeting_long =
      [String.mk (List.replicate 50 'a') ++ ".",
       String.mk (List.replicate 2000 'b') ++ "."] := by
    rw [transcript_texts_eq]
    unfold transcript_pairs
    have hne : ¬(meeting_long.transcript).isEmpty = true := by
      intro hh
      have hmt : meeting_long.transcript = "" := (String.isEmpty_iff _).mp hh
      have hdata := congrArg String.data hmt
      rw [show (meeting_long.transcript).data = t_long.data from rfl, t_long_data,
        show ("" : String).data = [] from rfl] at hdata
      exact absurd (List.append_eq_nil.mp hdata).2 (List.cons_ne_nil _ _)
    rw [if_neg hne]
    rw [show (meeting_long.transcript).length = 2052 from t_long_length]
    rw [if_neg (by norm_num)]
    rw [show meeting_long.transcript = t_long from rfl, smart_chunk_t_long]
    rfl
  refine ⟨?_, ?_, ?_, by norm_num⟩
  · rw [show (meeting_long.transcript).length = 2052 from t_long_length]
    norm_num
  · rw [htexts]
    rfl
  · rw [htexts]
    show (String.mk (List.replicate 50 'a') ++ ".").length = 51
    rw [append_dot_length]

end Polyglot
